import Mathlib

/-!
Shallow embedding of the Windows-NT introspection layer
(`src/fdp_exec/nt/os_nt.cpp`) and proofs about it.

Guest addresses, register values, struct-member offsets and symbol
addresses are `uint64_t` in the source; they are modelled as `Nat` with
explicit wrapping (`% 2^64`) wherever the source performs machine
arithmetic.  Guest-memory reads, register reads and the symbol store are
the external backend (`core::IHandler`); they are modelled as function
fields of a `Core` structure.  Fallible C++ calls returning `opt<T>`
become `Option`-valued functions.
-/

/-- Page size used by the kernel-image locator (`PAGE_SIZE` in the source,
4 KiB on x86-64). -/
def PAGE_SIZE : Nat := 4096

/-- Modulus of 64-bit machine arithmetic: every address computation in the
source is performed on `uint64_t`. -/
def U64 : Nat := 2 ^ 64

/-- Wrapping 64-bit addition, `a + b` on `uint64_t`. -/
def add64 (a b : Nat) : Nat := (a + b) % U64

/-- Wrapping 64-bit subtraction, `a - b` on `uint64_t`. -/
def sub64 (a b : Nat) : Nat := (a + (U64 - b % U64)) % U64

/-- Little-endian byte decoding; this is what the source's `read_le16` /
`read_le64` helpers compute on the bytes read from guest memory. -/
def le_bytes : List Nat → Nat
  | [] => 0
  | b :: bs => b + 256 * le_bytes bs

/-- Modelled from the spec: register identifier of the MSR-class register
read at bootstrap (`MSR_LSTAR`; the enum values live in a header that is
not part of the given sources, only distinctness matters). -/
def MSR_LSTAR : Nat := 0xC0000082

/-- Modelled from the spec: register identifier of the first candidate
segment-base register (`MSR_GS_BASE`). -/
def MSR_GS_BASE : Nat := 0xC0000101

/-- Modelled from the spec: register identifier of the second candidate
segment-base register (`MSR_KERNEL_GS_BASE`). -/
def MSR_KERNEL_GS_BASE : Nat := 0xC0000102

/-- Process handle (`proc_t`): address of the kernel process object and
address of its page-table root, exactly as in the data model. -/
structure proc_t where
  id : Nat
  dtb : Nat
  deriving DecidableEq, Repr

/-- Module handle (`mod_t`): address of the loader-data-table entry. -/
abbrev mod_t := Nat

/-- Contiguous guest-virtual address range (`span_t`). -/
structure span_t where
  addr : Nat
  size : Nat
  deriving DecidableEq, Repr

/-- Visitor verdict for enumeration callbacks (`walk_e`). -/
inductive walk_e where
  | WALK_NEXT
  | WALK_STOP
  deriving DecidableEq, Repr

/-- The backend's current address-space selection: `none` is the default
(kernel) address space, `some p` means the backend translates virtual
addresses through process `p`'s page-table root (after
`core_.switch_process(p)`). -/
abbrev Sel := Option proc_t

/-- The external memory/register/symbol backend (`core::IHandler`):
raw reads take the current address-space selection, an address and a byte
count; register reads, symbol-store ingestion and the two resolution
queries follow the interface in the spec. -/
structure Core where
  readBytes : Sel → Nat → Nat → Option (List Nat)
  readReg : Nat → Option Nat
  symSymbol : String → String → Option Nat
  symStrucOffset : String → String → String → Option Nat
  symInsert : String → span_t → List Nat → Bool
  peReadImageSize : List Nat → Option Nat

/-- Modelled from the spec: `core::read_ptr` (a `core_helpers` function
whose definition is not among the given sources) — one backend read of a
pointer-width (8-byte) value, decoded little-endian. -/
def read_ptr (core : Core) (sel : Sel) (addr : Nat) : Option Nat :=
  (core.readBytes sel addr 8).map le_bytes

/-- Modelled from the spec: `utils::align<PAGE_SIZE>` (a `utils.hpp`
template not among the given sources) — "round the entry address down to
the enclosing page". -/
def utils.align (a x : Nat) : Nat := x / a * a

/-- Loop body of `find_kernel` (os_nt.cpp:131-148).  The C++ loop is
`for(auto ptr = utils::align<PAGE_SIZE>(lstar); ptr < lstar; ptr -= PAGE_SIZE)`:
it probes the page at `ptr`, returns absent on a failed page read,
returns `{ptr, size}` when the image-size probe accepts the page, and
otherwise steps back one page.  When `ptr` reaches 0 the next unsigned
decrement wraps above `lstar` and the loop exits with absent; the model
makes that exit explicit (`ptr = 0`).  The first component is the C++
return value; the second records the probed page addresses in order
(instrumentation of the backend reads performed by the loop).  `fuel` is
a structural-recursion bound; the wrapper supplies one step per page
between the start address and 0, which the loop can never exceed. -/
def find_kernel_go (core : Core) (sel : Sel) (lstar : Nat) : Nat → Nat → Option span_t × List Nat
  | 0, _ => (none, [])
  | fuel + 1, ptr =>
    if ptr < lstar then
      match core.readBytes sel ptr PAGE_SIZE with
      | none => (none, [ptr])
      | some buf =>
        match core.peReadImageSize buf with
        | some size => (some ⟨ptr, size⟩, [ptr])
        | none =>
          if ptr = 0 then (none, [ptr])
          else
            let r := find_kernel_go core sel lstar fuel (ptr - PAGE_SIZE)
            (r.1, ptr :: r.2)
    else (none, [])

/-- `find_kernel` (os_nt.cpp:131-148): backward page scan from the
page-aligned start `utils::align<PAGE_SIZE>(lstar)`. -/
def find_kernel (core : Core) (sel : Sel) (lstar : Nat) : Option span_t × List Nat :=
  find_kernel_go core sel lstar (utils.align PAGE_SIZE lstar / PAGE_SIZE + 1)
    (utils.align PAGE_SIZE lstar)

/-! Member-offset catalog (`member_offset_e` / `g_member_offsets`,
os_nt.cpp:17-72): a closed enumeration of 20 struct members.  The enum
indices are mirrored below; the catalog itself is the same fixed list of
(module, struct, member) name triples. -/

def EPROCESS_ActiveProcessLinks : Nat := 0
def EPROCESS_ImageFileName : Nat := 1
def EPROCESS_Pcb : Nat := 2
def EPROCESS_Peb : Nat := 3
def EPROCESS_SeAuditProcessCreationInfo : Nat := 4
def EPROCESS_VadRoot : Nat := 5
def KPCR_Prcb : Nat := 6
def KPRCB_CurrentThread : Nat := 7
def KPROCESS_DirectoryTableBase : Nat := 8
def KTHREAD_Process : Nat := 9
def LDR_DATA_TABLE_ENTRY_DllBase : Nat := 10
def LDR_DATA_TABLE_ENTRY_FullDllName : Nat := 11
def LDR_DATA_TABLE_ENTRY_InLoadOrderLinks : Nat := 12
def LDR_DATA_TABLE_ENTRY_SizeOfImage : Nat := 13
def OBJECT_NAME_INFORMATION_Name : Nat := 14
def PEB_Ldr : Nat := 15
def PEB_LDR_DATA_InLoadOrderModuleList : Nat := 16
def PEB_ProcessParameters : Nat := 17
def RTL_USER_PROCESS_PARAMETERS_ImagePathName : Nat := 18
def SE_AUDIT_PROCESS_CREATION_INFO_ImageFileName : Nat := 19

/-- Number of member-offset catalog entries (`MEMBER_OFFSET_COUNT`). -/
def MEMBER_OFFSET_COUNT : Nat := 20

/-- The member-offset catalog `g_member_offsets` (os_nt.cpp:49-71). -/
def g_member_offsets : List (String × String × String) :=
  [ ("nt", "_EPROCESS", "ActiveProcessLinks"),
    ("nt", "_EPROCESS", "ImageFileName"),
    ("nt", "_EPROCESS", "Pcb"),
    ("nt", "_EPROCESS", "Peb"),
    ("nt", "_EPROCESS", "SeAuditProcessCreationInfo"),
    ("nt", "_EPROCESS", "VadRoot"),
    ("nt", "_KPCR", "Prcb"),
    ("nt", "_KPRCB", "CurrentThread"),
    ("nt", "_KPROCESS", "DirectoryTableBase"),
    ("nt", "_KTHREAD", "Process"),
    ("nt", "_LDR_DATA_TABLE_ENTRY", "DllBase"),
    ("nt", "_LDR_DATA_TABLE_ENTRY", "FullDllName"),
    ("nt", "_LDR_DATA_TABLE_ENTRY", "InLoadOrderLinks"),
    ("nt", "_LDR_DATA_TABLE_ENTRY", "SizeOfImage"),
    ("nt", "_OBJECT_NAME_INFORMATION", "Name"),
    ("nt", "_PEB", "Ldr"),
    ("nt", "_PEB_LDR_DATA", "InLoadOrderModuleList"),
    ("nt", "_PEB", "ProcessParameters"),
    ("nt", "_RTL_USER_PROCESS_PARAMETERS", "ImagePathName"),
    ("nt", "_SE_AUDIT_PROCESS_CREATION_INFO", "ImageFileName") ]

/-! Symbol catalog (`symbol_offset_e` / `g_symbol_offsets`,
os_nt.cpp:74-94). -/

def KiSystemCall64 : Nat := 0
def PsActiveProcessHead : Nat := 1
def PsInitialSystemProcess : Nat := 2

/-- Number of symbol catalog entries (`SYMBOL_OFFSET_COUNT`). -/
def SYMBOL_OFFSET_COUNT : Nat := 3

/-- The symbol catalog `g_symbol_offsets` (os_nt.cpp:88-93). -/
def g_symbol_offsets : List (String × String) :=
  [ ("nt", "KiSystemCall64"),
    ("nt", "PsActiveProcessHead"),
    ("nt", "PsInitialSystemProcess") ]

/-- Diagnostics emitted by `OsNt::setup` through `LOG(ERROR, ...)` and the
`FAIL(...)` macro (one constructor per distinct message). -/
inductive NtLog where
  | unableToFindKernel
  | unableToReadKernelModule
  | unableToLoadSymbols
  | missingSymbol (module name : String)
  | missingMember (module struc member : String)
  | pdbMismatch (lstar pdb : Nat)
  deriving DecidableEq, Repr

/-- The symbol-resolution loop of `OsNt::setup` (os_nt.cpp:172-183): each
catalog entry is resolved independently; the table slot holds the
resolved address on success and stays unwritten (`none`, the C++ array
slot is left uninitialized) on failure. -/
def resolvedSymbols (core : Core) : List (Option Nat) :=
  g_symbol_offsets.map fun e => core.symSymbol e.1 e.2

/-- The `LOG(ERROR, "unable to read %s!%s symbol offset", ...)` lines
emitted by the symbol-resolution loop, in catalog order. -/
def symbolErrors (core : Core) : List NtLog :=
  g_symbol_offsets.filterMap fun e =>
    if (core.symSymbol e.1 e.2).isSome then none else some (NtLog.missingSymbol e.1 e.2)

/-- The member-resolution loop of `OsNt::setup` (os_nt.cpp:184-195). -/
def resolvedMembers (core : Core) : List (Option Nat) :=
  g_member_offsets.map fun e => core.symStrucOffset e.1 e.2.1 e.2.2

/-- The `LOG(ERROR, "unable to read %s!%s.%s member offset", ...)` lines
emitted by the member-resolution loop, in catalog order. -/
def memberErrors (core : Core) : List NtLog :=
  g_member_offsets.filterMap fun e =>
    if (core.symStrucOffset e.1 e.2.1 e.2.2).isSome then none
    else some (NtLog.missingMember e.1 e.2.1 e.2.2)

/-- Result of `OsNt::setup`: the C++ `bool` return value, the diagnostics
emitted during the run, and the two offset tables as left in the `OsNt`
object (`none` marks a slot the run never wrote). -/
structure SetupResult where
  ok : Bool
  log : List NtLog
  symbols_ : List (Option Nat)
  members_ : List (Option Nat)
  deriving DecidableEq, Repr

/-- Fully unwritten symbol table (the `OsNt` member array before `setup`
writes to it). -/
def noSymbols : List (Option Nat) := List.replicate SYMBOL_OFFSET_COUNT none

/-- Fully unwritten member table. -/
def noMembers : List (Option Nat) := List.replicate MEMBER_OFFSET_COUNT none

/-- `OsNt::setup` (os_nt.cpp:151-204): read `MSR_LSTAR`, locate the
kernel, read its image, ingest symbols, resolve both catalogs without
stopping at failures (`fail` flag), then cross-check the resolved
`KiSystemCall64` address against the live `lstar` value.  `sel` is the
backend's ambient address-space selection. -/
def setup (core : Core) (sel : Sel) : SetupResult :=
  match core.readReg MSR_LSTAR with
  | none => ⟨false, [], noSymbols, noMembers⟩
  | some lstar =>
    match (find_kernel core sel lstar).1 with
    | none => ⟨false, [NtLog.unableToFindKernel], noSymbols, noMembers⟩
    | some kernel =>
      match core.readBytes sel kernel.addr kernel.size with
      | none => ⟨false, [NtLog.unableToReadKernelModule], noSymbols, noMembers⟩
      | some buffer =>
        if core.symInsert "nt" kernel buffer then
          if (resolvedSymbols core).any Option.isNone || (resolvedMembers core).any Option.isNone then
            ⟨false, symbolErrors core ++ memberErrors core, resolvedSymbols core, resolvedMembers core⟩
          else
            if lstar ≠ (((resolvedSymbols core).getD KiSystemCall64 none).getD 0) then
              ⟨false, [NtLog.pdbMismatch lstar (((resolvedSymbols core).getD KiSystemCall64 none).getD 0)],
                resolvedSymbols core, resolvedMembers core⟩
            else
              ⟨true, [], resolvedSymbols core, resolvedMembers core⟩
        else ⟨false, [NtLog.unableToLoadSymbols], noSymbols, noMembers⟩

/-- The walker object (`struct OsNt`): the backend reference plus the two
offset tables in the state `setup` left them in. -/
structure OsNt where
  core_ : Core
  members_ : List (Option Nat)
  symbols_ : List (Option Nat)

/-- `os::make_nt` (os_nt.cpp:206-217): construct the walker, run `setup`,
and hand the walker out only when `setup` succeeded. -/
def make_nt (core : Core) (sel : Sel) : Option OsNt :=
  if (setup core sel).ok then
    some ⟨core, (setup core sel).members_, (setup core sel).symbols_⟩
  else none

/-- `members_[i]` as used by the walker methods after a successful
bootstrap.  A slot `setup` never wrote is uninitialized in C++; the
model reads 0 from such a slot (by the all-or-nothing theorem no such
slot survives `make_nt`). -/
def OsNt.memv (nt : OsNt) (i : Nat) : Nat := (nt.members_.getD i none).getD 0

/-- `symbols_[i]`, as `OsNt.memv`. -/
def OsNt.symv (nt : OsNt) (i : Nat) : Nat := (nt.symbols_.getD i none).getD 0

/-- The process-object address recovered from a list-node address
(os_nt.cpp:224): `eproc = *link - members_[EPROCESS_ActiveProcessLinks]`. -/
def node_eproc (nt : OsNt) (link : Nat) : Nat :=
  sub64 link (nt.memv EPROCESS_ActiveProcessLinks)

/-- The page-table-root read performed for one list node
(os_nt.cpp:225): `read_ptr(eproc + members_[EPROCESS_Pcb] +
members_[KPROCESS_DirectoryTableBase])`. -/
def node_dtb (nt : OsNt) (sel : Sel) (link : Nat) : Option Nat :=
  read_ptr nt.core_ sel
    (add64 (add64 (node_eproc nt link) (nt.memv EPROCESS_Pcb))
      (nt.memv KPROCESS_DirectoryTableBase))

/-- Loop of `OsNt::list_procs` (os_nt.cpp:222-235).  The C++ compares the
optional `link` against `head` (an empty optional compares unequal) and
then dereferences `*link` in the loop body; when the link read failed the
dereference of the disengaged optional is undefined behaviour, modelled
here as the distinguished result `none` (a crash, not a C++ return).
Result: (C++ return value or crash, processes passed to the visitor in
order, `eproc` addresses whose page-table-root read failed and was
logged, in order).  `fuel` bounds the walk; a walk that exhausts it has
simply not terminated yet (value immaterial to the theorems below, which
supply enough fuel). -/
def OsNt.list_procs_go (nt : OsNt) (sel : Sel) (onp : proc_t → walk_e) (head : Nat) :
    Nat → Option Nat → Option Bool × List proc_t × List Nat
  | 0, _ => (some true, [], [])
  | _ + 1, none => (none, [], [])
  | fuel + 1, some link =>
    if link = head then (some true, [], [])
    else
      match node_dtb nt sel link with
      | none =>
        let r := OsNt.list_procs_go nt sel onp head fuel (read_ptr nt.core_ sel link)
        (r.1, r.2.1, node_eproc nt link :: r.2.2)
      | some dtb =>
        match onp ⟨node_eproc nt link, dtb⟩ with
        | walk_e.WALK_STOP => (some true, [⟨node_eproc nt link, dtb⟩], [])
        | walk_e.WALK_NEXT =>
          let r := OsNt.list_procs_go nt sel onp head fuel (read_ptr nt.core_ sel link)
          (r.1, ⟨node_eproc nt link, dtb⟩ :: r.2.1, r.2.2)

/-- `OsNt::list_procs` (os_nt.cpp:219-237): walk the circular list rooted
at the resolved `PsActiveProcessHead`. -/
def OsNt.list_procs (nt : OsNt) (sel : Sel) (onp : proc_t → walk_e) (fuel : Nat) :
    Option Bool × List proc_t × List Nat :=
  OsNt.list_procs_go nt sel onp (nt.symv PsActiveProcessHead) fuel
    (read_ptr nt.core_ sel (nt.symv PsActiveProcessHead))

/-- `read_gs_base` (os_nt.cpp:241-255): read `MSR_GS_BASE`; keep it when
any of its top twelve bits is set (canonical kernel-space value),
otherwise fall back to reading `MSR_KERNEL_GS_BASE`. -/
def read_gs_base (core : Core) : Option Nat :=
  match core.readReg MSR_GS_BASE with
  | none => none
  | some gs =>
    if gs &&& 0xFFF0000000000000 ≠ 0 then some gs
    else core.readReg MSR_KERNEL_GS_BASE

/-- `OsNt::get_current_proc` (os_nt.cpp:258-278): gs base, then three
fixed-offset pointer dereferences (KPCR.Prcb.CurrentThread →
KTHREAD.Process → KPROCESS.DirectoryTableBase), then recover the
`_EPROCESS` address by subtracting the `Pcb` member offset. -/
def OsNt.get_current_proc (nt : OsNt) (sel : Sel) : Option proc_t :=
  match read_gs_base nt.core_ with
  | none => none
  | some gs =>
    match read_ptr nt.core_ sel
        (add64 (add64 gs (nt.memv KPCR_Prcb)) (nt.memv KPRCB_CurrentThread)) with
    | none => none
    | some current_thread =>
      match read_ptr nt.core_ sel (add64 current_thread (nt.memv KTHREAD_Process)) with
      | none => none
      | some kproc =>
        match read_ptr nt.core_ sel (add64 kproc (nt.memv KPROCESS_DirectoryTableBase)) with
        | none => none
        | some dtb => some ⟨sub64 kproc (nt.memv EPROCESS_Pcb), dtb⟩

/-- Modelled from the spec: the external UTF-16→UTF-8 string decoder
(`utf8::convert`, out of scope per the spec) — UTF-8 encoding of one
basic-multilingual-plane code unit. -/
def utf8_encode_unit (u : Nat) : List Nat :=
  if u < 0x80 then [u]
  else if u < 0x800 then [0xC0 + u / 64, 0x80 + u % 64]
  else [0xE0 + u / 4096, 0x80 + u / 64 % 64, 0x80 + u % 64]

/-- Modelled from the spec: the external UTF-16→UTF-8 string decoder
(`decode_wide(byte_range) -> optional(string)`): decode little-endian
16-bit units and UTF-8-encode them; an odd byte count or a surrogate
unit fails. -/
def decodeUtf16le : List Nat → Option (List Nat)
  | [] => some []
  | lo :: hi :: rest =>
    if 0xD800 ≤ lo + 256 * hi ∧ lo + 256 * hi < 0xE000 then none
    else (decodeUtf16le rest).map fun tail => utf8_encode_unit (lo + 256 * hi) ++ tail
  | [_] => none

/-- `read_unicode_string` (os_nt.cpp:297-325): read the 16-byte
descriptor `{u16 length; u16 max_length; u32 pad; u64 buffer}`
little-endian, reject it when `length > max_length`, otherwise read
`length` bytes from `buffer` and decode them.  The second component
records the backend reads performed, in order (instrumentation showing
whether the string buffer was touched). -/
def read_unicode_string (core : Core) (sel : Sel) (unicode_string : Nat) :
    Option (List Nat) × List (Nat × Nat) :=
  match core.readBytes sel unicode_string 16 with
  | none => (none, [(unicode_string, 16)])
  | some us =>
    if le_bytes ((us.drop 2).take 2) < le_bytes (us.take 2) then (none, [(unicode_string, 16)])
    else
      match core.readBytes sel (le_bytes ((us.drop 8).take 8)) (le_bytes (us.take 2)) with
      | none =>
        (none, [(unicode_string, 16), (le_bytes ((us.drop 8).take 8), le_bytes (us.take 2))])
      | some bs =>
        (decodeUtf16le bs, [(unicode_string, 16), (le_bytes ((us.drop 8).take 8), le_bytes (us.take 2))])

/-- Modelled from the spec: the final-path-component extraction the
source performs with `fs::path(*path).filename().generic_string()`
("return only its final path component").  Following the library the
source uses (POSIX rules, `/` separators): an empty path has an empty
filename, a path ending in a separator decomposes with a trailing dot
component (`"/"` itself is its own filename), otherwise the filename is
the text after the last separator. -/
def path_filename (s : List Nat) : List Nat :=
  if s.isEmpty then []
  else if s.getLast? = some 47 then
    (if s.all fun c => c = 47 then [47] else [46])
  else (s.reverse.takeWhile fun c => c ≠ 47).reverse

/-- `OsNt::get_proc_name` (os_nt.cpp:328-350): read the 15-byte buffer
over `EPROCESS.ImageFileName` (14 usable bytes, the 15th is forced to 0),
take the text up to the first NUL; when it fills all 14 bytes, chase
`SeAuditProcessCreationInfo.ImageFileName` → `OBJECT_NAME_INFORMATION.Name`
to a Unicode path and return its final component, silently keeping the
short name when any fallback step fails. -/
def OsNt.get_proc_name (nt : OsNt) (sel : Sel) (proc : proc_t) : Option (List Nat) :=
  match nt.core_.readBytes sel (add64 proc.id (nt.memv EPROCESS_ImageFileName)) 15 with
  | none => none
  | some buf =>
    if ((buf.take 14).takeWhile fun b => b ≠ 0).length < 14 then
      some ((buf.take 14).takeWhile fun b => b ≠ 0)
    else
      match read_ptr nt.core_ sel
          (add64 (add64 proc.id (nt.memv EPROCESS_SeAuditProcessCreationInfo))
            (nt.memv SE_AUDIT_PROCESS_CREATION_INFO_ImageFileName)) with
      | none => some ((buf.take 14).takeWhile fun b => b ≠ 0)
      | some image_file_name =>
        match (read_unicode_string nt.core_ sel
            (add64 image_file_name (nt.memv OBJECT_NAME_INFORMATION_Name))).1 with
        | none => some ((buf.take 14).takeWhile fun b => b ≠ 0)
        | some path => some (path_filename path)

/-- Loop of `OsNt::list_mods` (os_nt.cpp:368-370).  Unlike `list_procs`,
the loop guard is `link && link != head`, so a failed link read ends the
walk normally.  All reads run under the switched address space `selp`. -/
def OsNt.list_mods_go (nt : OsNt) (selp : Sel) (onm : mod_t → walk_e) (head : Nat) :
    Nat → Option Nat → Bool
  | 0, _ => true
  | _ + 1, none => true
  | fuel + 1, some link =>
    if link = head then true
    else
      match onm (sub64 link (nt.memv LDR_DATA_TABLE_ENTRY_InLoadOrderLinks)) with
      | walk_e.WALK_STOP => true
      | walk_e.WALK_NEXT =>
        OsNt.list_mods_go nt selp onm head fuel (read_ptr nt.core_ selp link)

/-- `OsNt::list_mods` (os_nt.cpp:352-373): read the PEB pointer in the
ambient address space (`sel`); a null PEB is the system process and a
normal success.  Otherwise `core_.switch_process(proc)` scopes the
remaining reads to the target process (`selp = some proc`); the guard's
destructor restores the previous selection on every exit path, so the
function returns the pair (C++ return value, backend selection after the
call). -/
def OsNt.list_mods (nt : OsNt) (sel : Sel) (proc : proc_t) (onm : mod_t → walk_e)
    (fuel : Nat) : Bool × Sel :=
  match read_ptr nt.core_ sel (add64 proc.id (nt.memv EPROCESS_Peb)) with
  | none => (false, sel)
  | some peb =>
    if peb = 0 then (true, sel)
    else
      match read_ptr nt.core_ (some proc) (add64 peb (nt.memv PEB_Ldr)) with
      | none => (false, sel)
      | some ldr =>
        (OsNt.list_mods_go nt (some proc) onm
          (add64 ldr (nt.memv PEB_LDR_DATA_InLoadOrderModuleList)) fuel
          (read_ptr nt.core_ (some proc)
            (add64 ldr (nt.memv PEB_LDR_DATA_InLoadOrderModuleList))), sel)

/-- `OsNt::get_mod_name` (os_nt.cpp:375-379): under the scoped switch,
read the module's `FullDllName` Unicode descriptor.  Returns (result,
backend selection after the call). -/
def OsNt.get_mod_name (nt : OsNt) (sel : Sel) (proc : proc_t) (md : mod_t) :
    Option (List Nat) × Sel :=
  ((read_unicode_string nt.core_ (some proc)
      (add64 md (nt.memv LDR_DATA_TABLE_ENTRY_FullDllName))).1, sel)

/-- `OsNt::get_mod_span` (os_nt.cpp:387-399): under the scoped switch,
read `DllBase` and `SizeOfImage` — both through `core::read_ptr`, i.e. as
full 8-byte little-endian values.  Returns (result, backend selection
after the call). -/
def OsNt.get_mod_span (nt : OsNt) (sel : Sel) (proc : proc_t) (md : mod_t) :
    Option span_t × Sel :=
  match read_ptr nt.core_ (some proc) (add64 md (nt.memv LDR_DATA_TABLE_ENTRY_DllBase)) with
  | none => (none, sel)
  | some base =>
    match read_ptr nt.core_ (some proc) (add64 md (nt.memv LDR_DATA_TABLE_ENTRY_SizeOfImage)) with
    | none => (none, sel)
    | some size => (some ⟨base, size⟩, sel)

/-- The forward-link reads `list_procs` performs when the active-process
list threads `head → ns₀ → ns₁ → ... → head`, every intermediate node
distinct from `head`: a Boolean chain predicate over the walker's
backend. -/
def proc_chain (nt : OsNt) (sel : Sel) (head : Nat) : Nat → List Nat → Bool
  | cur, [] => decide (read_ptr nt.core_ sel cur = some head)
  | cur, n :: rest =>
    decide (read_ptr nt.core_ sel cur = some n) && decide (n ≠ head) &&
      proc_chain nt sel head n rest

/-- The visitor that never requests an early stop. -/
def walkNextAll : proc_t → walk_e := fun _ => walk_e.WALK_NEXT

/-! Concrete backend states used to exercise the theorems below on closed
inputs.  Each is a small guest-memory snapshot encoded as a function on
(address, length). -/

/-- Backend whose guest memory holds a valid image header in every page
and whose page at `0x1000` is readable: used to exercise the locator on a
page-aligned register value. -/
def coreAligned : Core where
  readBytes := fun _ _ _ => some [77, 90]
  readReg := fun _ => none
  symSymbol := fun _ _ => none
  symStrucOffset := fun _ _ _ => none
  symInsert := fun _ _ _ => false
  peReadImageSize := fun bs => if bs = [77, 90] then some 0x5000 else none

/-- Backend for the locator run from unaligned `0x2100`: the page at
`0x2000` reads fine but holds no header, the page at `0x1000` holds a
valid header of declared size `0x4242`. -/
def coreScan : Core where
  readBytes := fun _ a _ => if a = 0x2000 then some [1] else if a = 0x1000 then some [2] else none
  readReg := fun _ => none
  symSymbol := fun _ _ => none
  symStrucOffset := fun _ _ _ => none
  symInsert := fun _ _ _ => false
  peReadImageSize := fun bs => if bs = [2] then some 0x4242 else none

/-- Backend for a full bootstrap in which every step up to resolution
succeeds and every catalog entry resolves, but the resolved addresses
(all 7) disagree with the `MSR_LSTAR` value `0x1100`. -/
def coreMismatch : Core where
  readBytes := fun _ _ _ => some []
  readReg := fun r => if r = MSR_LSTAR then some 0x1100 else none
  symSymbol := fun _ _ => some 7
  symStrucOffset := fun _ _ _ => some 3
  symInsert := fun _ _ _ => true
  peReadImageSize := fun _ => some 0x42

/-- Backend for a bootstrap in which every step up to resolution succeeds
but no catalog entry resolves at all. -/
def coreUnresolved : Core where
  readBytes := fun _ _ _ => some []
  readReg := fun r => if r = MSR_LSTAR then some 0x1100 else none
  symSymbol := fun _ _ => none
  symStrucOffset := fun _ _ _ => none
  symInsert := fun _ _ _ => true
  peReadImageSize := fun _ => some 0x42

/-- Member-offset table with `ActiveProcessLinks = 8`, `Pcb = 16`,
`DirectoryTableBase = 40` and all other offsets 0. -/
def membersWalk : List (Option Nat) :=
  [some 8, some 0, some 16, some 0, some 0, some 0, some 0, some 0, some 40, some 0,
   some 0, some 0, some 0, some 0, some 0, some 0, some 0, some 0, some 0, some 0]

/-- Walker whose process list head `0x500` links to one node `0x600`
whose page-table-root field reads back `1`, but whose own forward link at
`0x600` is unreadable: the second link read of the walk fails. -/
def ntLinkFail : OsNt where
  core_ :=
    { readBytes := fun _ a n =>
        if a = 0x500 ∧ n = 8 then some [0, 6, 0, 0, 0, 0, 0, 0]
        else if a = 0x630 ∧ n = 8 then some [1, 0, 0, 0, 0, 0, 0, 0]
        else none
      readReg := fun _ => none
      symSymbol := fun _ _ => none
      symStrucOffset := fun _ _ _ => none
      symInsert := fun _ _ _ => false
      peReadImageSize := fun _ => none }
  members_ := membersWalk
  symbols_ := [some 0, some 0x500, some 0]

/-- Walker whose process list head `0x500` links directly back to itself:
the empty active-process list. -/
def ntEmptyList : OsNt where
  core_ :=
    { readBytes := fun _ a n =>
        if a = 0x500 ∧ n = 8 then some [0, 5, 0, 0, 0, 0, 0, 0] else none
      readReg := fun _ => none
      symSymbol := fun _ _ => none
      symStrucOffset := fun _ _ _ => none
      symInsert := fun _ _ _ => false
      peReadImageSize := fun _ => none }
  members_ := membersWalk
  symbols_ := [some 0, some 0x500, some 0]

/-- Walker whose backend reports a canonical `MSR_GS_BASE` value. -/
def ntGsCanonical : OsNt where
  core_ :=
    { readBytes := fun _ _ _ => none
      readReg := fun r => if r = MSR_GS_BASE then some 0x10000000000000 else none
      symSymbol := fun _ _ => none
      symStrucOffset := fun _ _ _ => none
      symInsert := fun _ _ _ => false
      peReadImageSize := fun _ => none }
  members_ := membersWalk
  symbols_ := [some 0, some 0x500, some 0]

/-- Walker for the name-resolution round trip with all member offsets 0:
process object at `100`, its 14-byte image-name field full of `A`s (so
the capped text exactly fills the buffer), a readable fallback chain
whose Unicode path descriptor has `length = 0`, so the decoded full path
is the empty string. -/
def ntNameEmptyPath : OsNt where
  core_ :=
    { readBytes := fun _ a n =>
        if a = 100 ∧ n = 15 then some (List.replicate 14 65 ++ [0])
        else if a = 100 ∧ n = 8 then some [200, 0, 0, 0, 0, 0, 0, 0]
        else if a = 200 ∧ n = 16 then some [0, 0, 0, 0, 0, 0, 0, 0, 44, 1, 0, 0, 0, 0, 0, 0]
        else if a = 300 ∧ n = 0 then some []
        else none
      readReg := fun _ => none
      symSymbol := fun _ _ => none
      symStrucOffset := fun _ _ _ => none
      symInsert := fun _ _ _ => false
      peReadImageSize := fun _ => none }
  members_ := List.replicate 20 (some 0)
  symbols_ := List.replicate 3 (some 0)

/-- Walker for the name-resolution round trip in which the capped field
is full of `B`s and the first fallback dereference is unreadable. -/
def ntNameFallbackFail : OsNt where
  core_ :=
    { readBytes := fun _ a n =>
        if a = 100 ∧ n = 15 then some (List.replicate 14 66 ++ [0]) else none
      readReg := fun _ => none
      symSymbol := fun _ _ => none
      symStrucOffset := fun _ _ _ => none
      symInsert := fun _ _ _ => false
      peReadImageSize := fun _ => none }
  members_ := List.replicate 20 (some 0)
  symbols_ := List.replicate 3 (some 0)

/-- Backend holding a Unicode-string descriptor at `0x40` whose `length`
(5) exceeds its `max_length` (2), with a readable buffer at `0x10`. -/
def coreCorruptUs : Core where
  readBytes := fun _ a n =>
    if a = 0x40 ∧ n = 16 then some [5, 0, 2, 0, 0, 0, 0, 0, 0x10, 0, 0, 0, 0, 0, 0, 0]
    else if a = 0x10 then some [65, 0, 66, 0, 67, 0]
    else none
  readReg := fun _ => none
  symSymbol := fun _ _ => none
  symStrucOffset := fun _ _ _ => none
  symInsert := fun _ _ _ => false
  peReadImageSize := fun _ => none

/-- Walker for the module-span read: module entry at `0x100`,
`DllBase` offset `0x20` holding the 8-byte value 9, `SizeOfImage` offset
`0x28` holding the 8-byte value 1. -/
def ntModSpan : OsNt where
  core_ :=
    { readBytes := fun _ a n =>
        if a = 0x120 ∧ n = 8 then some [9, 0, 0, 0, 0, 0, 0, 0]
        else if a = 0x128 ∧ n = 8 then some [1, 0, 0, 0, 0, 0, 0, 0]
        else none
      readReg := fun _ => none
      symSymbol := fun _ _ => none
      symStrucOffset := fun _ _ _ => none
      symInsert := fun _ _ _ => false
      peReadImageSize := fun _ => none }
  members_ :=
    [some 0, some 0, some 0, some 0, some 0, some 0, some 0, some 0, some 0, some 0,
     some 0x20, some 0, some 0, some 0x28, some 0, some 0, some 0, some 0, some 0, some 0]
  symbols_ := [some 0, some 0, some 0]

/-! Helper lemmas. -/

theorem le_bytes_append : ∀ a b : List Nat,
    le_bytes (a ++ b) = le_bytes a + 256 ^ a.length * le_bytes b
  | [], b => by simp [le_bytes]
  | x :: xs, b => by
    have ih := le_bytes_append xs b
    show x + 256 * le_bytes (xs ++ b) = x + 256 * le_bytes xs + 256 ^ (xs.length + 1) * le_bytes b
    rw [ih]
    ring

theorem le_bytes_eq_zero (l : List Nat) : le_bytes l = 0 ↔ ∀ b ∈ l, b = 0 := by
  induction l with
  | nil => simp [le_bytes]
  | cons x xs ih =>
    simp only [le_bytes, List.mem_cons]
    constructor
    · intro h
      have hx : x = 0 := by omega
      have hxs : le_bytes xs = 0 := by omega
      rcases ih.1 hxs with h2
      rintro b (rfl | hb)
      · exact hx
      · exact h2 b hb
    · rintro h
      have hx := h x (Or.inl rfl)
      have hxs : le_bytes xs = 0 := ih.2 fun b hb => h b (Or.inr hb)
      omega

theorem le_bytes_take_four (l : List Nat) :
    le_bytes l = le_bytes (l.take 4) ↔ ∀ b ∈ l.drop 4, b = 0 := by
  have hsplit : le_bytes l
      = le_bytes (l.take 4) + 256 ^ (l.take 4).length * le_bytes (l.drop 4) := by
    conv_lhs => rw [← List.take_append_drop 4 l]
    rw [le_bytes_append]
  rw [hsplit, ← le_bytes_eq_zero]
  have hpow : 256 ^ (l.take 4).length ≠ 0 := pow_ne_zero _ (by norm_num)
  constructor
  · intro h
    have h0 : 256 ^ (l.take 4).length * le_bytes (l.drop 4) = 0 := by omega
    rcases Nat.mul_eq_zero.mp h0 with h1 | h1
    · exact absurd h1 hpow
    · exact h1
  · intro h
    rw [h, Nat.mul_zero, Nat.add_zero]

/-- C8: every call of `list_mods`, `get_mod_name` or `get_mod_span` that
switches into the target process's address space restores the backend's
previous address-space selection on every exit path (normal completion,
early visitor stop, null PEB, and every read failure): the selection
returned after the call equals the selection before it. -/
theorem C8_switch_restored (nt : OsNt) (sel : Sel) (proc : proc_t) (md : mod_t)
    (onm : mod_t → walk_e) (fuel : Nat) :
    (OsNt.list_mods nt sel proc onm fuel).2 = sel ∧
    (OsNt.get_mod_name nt sel proc md).2 = sel ∧
    (OsNt.get_mod_span nt sel proc md).2 = sel := by
  refine ⟨?_, rfl, ?_⟩
  · unfold OsNt.list_mods
    rcases read_ptr nt.core_ sel (add64 proc.id (nt.memv EPROCESS_Peb)) with _ | peb
    · rfl
    · by_cases hz : peb = 0
      · simp [hz]
      · simp only [hz, ite_false]
        rcases read_ptr nt.core_ (some proc) (add64 peb (nt.memv PEB_Ldr)) with _ | ldr <;> rfl
  · unfold OsNt.get_mod_span
    rcases read_ptr nt.core_ (some proc) (add64 md (nt.memv LDR_DATA_TABLE_ENTRY_DllBase)) with _ | base
    · rfl
    · rcases read_ptr nt.core_ (some proc) (add64 md (nt.memv LDR_DATA_TABLE_ENTRY_SizeOfImage)) with _ | size <;> rfl

/-- C9: a Unicode-string descriptor read from guest memory whose decoded
`length` exceeds its decoded `max_length` is rejected with an absent
result, and the only backend read performed is the 16-byte descriptor
read itself — the string buffer is never touched. -/
theorem C9_corrupt_rejected (core : Core) (sel : Sel) (addr : Nat) (us : List Nat)
    (hread : core.readBytes sel addr 16 = some us)
    (hcorrupt : le_bytes ((us.drop 2).take 2) < le_bytes (us.take 2)) :
    read_unicode_string core sel addr = (none, [(addr, 16)]) := by
  unfold read_unicode_string
  rw [hread]
  simp [hcorrupt]

/-- C9 witness: concrete descriptor with `length = 5 > max_length = 2`. -/
theorem C9_corrupt_rejected_witness :
    read_unicode_string coreCorruptUs none 0x40 = (none, [(0x40, 16)]) :=
  C9_corrupt_rejected coreCorruptUs none 0x40
    [5, 0, 2, 0, 0, 0, 0, 0, 0x10, 0, 0, 0, 0, 0, 0, 0] (by decide) (by decide)

/-- C10: a successful `get_mod_span` read both the `DllBase` and the
`SizeOfImage` member as full 8-byte little-endian values; the returned
size is the 64-bit value stored at the `SizeOfImage` offset, and it
equals the 32-bit field stored in the first four of those bytes exactly
when the four bytes after it are all zero. -/
theorem C10_mod_span_64bit (nt : OsNt) (sel : Sel) (proc : proc_t) (md : mod_t)
    (s : span_t) (h : (OsNt.get_mod_span nt sel proc md).1 = some s) :
    ∃ b1 b2,
      nt.core_.readBytes (some proc) (add64 md (nt.memv LDR_DATA_TABLE_ENTRY_DllBase)) 8 = some b1 ∧
      nt.core_.readBytes (some proc) (add64 md (nt.memv LDR_DATA_TABLE_ENTRY_SizeOfImage)) 8 = some b2 ∧
      s = ⟨le_bytes b1, le_bytes b2⟩ ∧
      (le_bytes b2 = le_bytes (b2.take 4) ↔ ∀ b ∈ b2.drop 4, b = 0) := by
  unfold OsNt.get_mod_span read_ptr at h
  rcases h1 : nt.core_.readBytes (some proc) (add64 md (nt.memv LDR_DATA_TABLE_ENTRY_DllBase)) 8 with _ | b1 <;>
    rw [h1] at h
  · simp at h
  rcases h2 : nt.core_.readBytes (some proc) (add64 md (nt.memv LDR_DATA_TABLE_ENTRY_SizeOfImage)) 8 with _ | b2 <;>
    rw [h2] at h
  · simp at h
  simp only [Option.map_some'] at h
  refine ⟨b1, b2, rfl, rfl, ?_, le_bytes_take_four b2⟩
  have hs : some (span_t.mk (le_bytes b1) (le_bytes b2)) = some s := h
  exact (Option.some_inj.mp hs).symm

/-- C10 witness: concrete module entry whose two 8-byte fields decode to
base 9 and size 1 (trailing four bytes zero, so the 64-bit size equals
the 32-bit field). -/
theorem C10_mod_span_64bit_witness :
    ∃ b1 b2,
      ntModSpan.core_.readBytes (some ⟨1, 2⟩)
        (add64 0x100 (ntModSpan.memv LDR_DATA_TABLE_ENTRY_DllBase)) 8 = some b1 ∧
      ntModSpan.core_.readBytes (some ⟨1, 2⟩)
        (add64 0x100 (ntModSpan.memv LDR_DATA_TABLE_ENTRY_SizeOfImage)) 8 = some b2 ∧
      (⟨9, 1⟩ : span_t) = ⟨le_bytes b1, le_bytes b2⟩ ∧
      (le_bytes b2 = le_bytes (b2.take 4) ↔ ∀ b ∈ b2.drop 4, b = 0) :=
  C10_mod_span_64bit ntModSpan none ⟨1, 2⟩ 0x100 ⟨9, 1⟩ (by decide)

/-- C4: the claim says a failed forward-link read mid-walk is handled as
an absent result without dereferencing it.  The code violates this: the
loop condition `link != head` is true for a disengaged optional, and the
body then evaluates `*link` — undefined behaviour, modelled as the crash
result `none`.  Concretely: head `0x500` links to node `0x600`, whose
page-table root reads back fine, but the link read at `0x600` fails; the
walk crashes instead of ending, after visiting the one good node. -/
theorem C4_link_crash_eval :
    OsNt.list_procs ntLinkFail none walkNextAll 3 = (none, [⟨0x5F8, 1⟩], []) ∧
    read_ptr ntLinkFail.core_ none 0x600 = none := by
  constructor <;> decide

/-- Step lemma for the process-list walk: if the forward links thread
`cur → ns → head` with every node distinct from `head`, then for any
visitor the walk ends as a C++ `return true` (never the crash), and with
the never-stopping visitor it visits exactly the nodes whose
page-table-root read succeeds and logs exactly the others. -/
theorem list_procs_go_chain (nt : OsNt) (sel : Sel) (head : Nat) :
    ∀ (ns : List Nat) (fuel : Nat) (cur : Nat),
      proc_chain nt sel head cur ns = true → ns.length < fuel →
      (∀ onp, (OsNt.list_procs_go nt sel onp head fuel (read_ptr nt.core_ sel cur)).1 = some true) ∧
      (OsNt.list_procs_go nt sel walkNextAll head fuel (read_ptr nt.core_ sel cur)).2.1
        = ns.filterMap (fun n => (node_dtb nt sel n).map fun d => ⟨node_eproc nt n, d⟩) ∧
      (OsNt.list_procs_go nt sel walkNextAll head fuel (read_ptr nt.core_ sel cur)).2.2
        = (ns.filter fun n => (node_dtb nt sel n).isNone).map (node_eproc nt) := by
  intro ns
  induction ns with
  | nil =>
    intro fuel cur hchain hfuel
    obtain ⟨f, rfl⟩ : ∃ f, fuel = f + 1 := ⟨fuel - 1, by omega⟩
    simp only [proc_chain, decide_eq_true_eq] at hchain
    rw [hchain]
    refine ⟨fun onp => ?_, ?_, ?_⟩ <;>
      simp [OsNt.list_procs_go]
  | cons n rest ih =>
    intro fuel cur hchain hfuel
    obtain ⟨f, rfl⟩ : ∃ f, fuel = f + 1 := ⟨fuel - 1, by omega⟩
    simp only [proc_chain, Bool.and_eq_true, decide_eq_true_eq] at hchain
    obtain ⟨⟨hcur, hne⟩, hrest⟩ := hchain
    have hflen : rest.length < f := by
      simp only [List.length_cons] at hfuel; omega
    have ihr := ih f n hrest hflen
    rw [hcur]
    refine ⟨fun onp => ?_, ?_, ?_⟩
    · simp only [OsNt.list_procs_go, if_neg hne]
      rcases hdtb : node_dtb nt sel n with _ | dtb
      · simpa using (ih f n hrest hflen).1 onp
      · rcases honp : onp ⟨node_eproc nt n, dtb⟩ with _ | _
        · simp [honp]
          exact (ih f n hrest hflen).1 onp
        · simp [honp]
    · simp only [OsNt.list_procs_go, if_neg hne]
      rcases hdtb : node_dtb nt sel n with _ | dtb
      · simpa [List.filterMap_cons, hdtb] using ihr.2.1
      · simpa [walkNextAll, List.filterMap_cons, hdtb] using ihr.2.1
    · simp only [OsNt.list_procs_go, if_neg hne]
      rcases hdtb : node_dtb nt sel n with _ | dtb
      · simpa [List.filter_cons, hdtb] using ihr.2.2
      · simpa [walkNextAll, List.filter_cons, hdtb] using ihr.2.2

/-- C5: when the active-process list threads `head → ns → head`, a node
whose page-table-root read fails is logged and skipped while the walk
continues (the visited processes are exactly the readable nodes, the
logged addresses exactly the unreadable ones), the walk returns success
for every visitor even when zero processes are visited; in particular a
head whose link points back to itself (`ns = []`) visits zero processes
and returns success. -/
theorem C5_skip_and_success (nt : OsNt) (sel : Sel) (ns : List Nat) (fuel : Nat)
    (hchain : proc_chain nt sel (nt.symv PsActiveProcessHead) (nt.symv PsActiveProcessHead) ns = true)
    (hfuel : ns.length < fuel) :
    (∀ onp, (OsNt.list_procs nt sel onp fuel).1 = some true) ∧
    (OsNt.list_procs nt sel walkNextAll fuel).2.1
      = ns.filterMap (fun n => (node_dtb nt sel n).map fun d => ⟨node_eproc nt n, d⟩) ∧
    (OsNt.list_procs nt sel walkNextAll fuel).2.2
      = (ns.filter fun n => (node_dtb nt sel n).isNone).map (node_eproc nt) := by
  have h := list_procs_go_chain nt sel (nt.symv PsActiveProcessHead) ns fuel
    (nt.symv PsActiveProcessHead) hchain hfuel
  exact ⟨fun onp => h.1 onp, h.2.1, h.2.2⟩

/-- C5 witness: the empty list (head `0x500` self-linked) visits zero
processes, logs nothing and returns success. -/
theorem C5_skip_and_success_witness :
    (∀ onp, (OsNt.list_procs ntEmptyList none onp 1).1 = some true) ∧
    (OsNt.list_procs ntEmptyList none walkNextAll 1).2.1 = [] ∧
    (OsNt.list_procs ntEmptyList none walkNextAll 1).2.2 = [] := by
  have h := C5_skip_and_success ntEmptyList none [] 1 (by decide) (by decide)
  exact ⟨h.1, by simpa using h.2.1, by simpa using h.2.2⟩

/-- C6: `current_process` prefers whichever candidate segment-base
register holds a canonical kernel-space value — `MSR_GS_BASE` is kept
exactly when one of its top twelve bits is set, otherwise the value read
from `MSR_KERNEL_GS_BASE` is used — and the call returns a process handle
exactly when the register read and every fixed-offset dereference of the
chain control-region → current-thread → owning-process → page-table-root
succeeds, so any failure along the chain yields an absent result and no
partial handle. -/
theorem C6_current_process (nt : OsNt) (sel : Sel) :
    (∀ g, nt.core_.readReg MSR_GS_BASE = some g → g &&& 0xFFF0000000000000 ≠ 0 →
      read_gs_base nt.core_ = some g) ∧
    (∀ g, nt.core_.readReg MSR_GS_BASE = some g → g &&& 0xFFF0000000000000 = 0 →
      read_gs_base nt.core_ = nt.core_.readReg MSR_KERNEL_GS_BASE) ∧
    (∀ p, OsNt.get_current_proc nt sel = some p ↔
      ∃ gs ct kp d,
        read_gs_base nt.core_ = some gs ∧
        read_ptr nt.core_ sel
          (add64 (add64 gs (nt.memv KPCR_Prcb)) (nt.memv KPRCB_CurrentThread)) = some ct ∧
        read_ptr nt.core_ sel (add64 ct (nt.memv KTHREAD_Process)) = some kp ∧
        read_ptr nt.core_ sel (add64 kp (nt.memv KPROCESS_DirectoryTableBase)) = some d ∧
        p = ⟨sub64 kp (nt.memv EPROCESS_Pcb), d⟩) := by
  refine ⟨?_, ?_, ?_⟩
  · intro g hg hc
    unfold read_gs_base
    rw [hg]
    simp [hc]
  · intro g hg hc
    unfold read_gs_base
    rw [hg]
    simp [hc]
  · intro p
    unfold OsNt.get_current_proc
    constructor
    · intro h
      split at h
      · exact absurd h (by simp)
      rename_i gs h1
      split at h
      · exact absurd h (by simp)
      rename_i ct h2
      split at h
      · exact absurd h (by simp)
      rename_i kp h3
      split at h
      · exact absurd h (by simp)
      rename_i d h4
      exact ⟨gs, ct, kp, d, h1, h2, h3, h4, (Option.some_inj.mp h).symm⟩
    · rintro ⟨gs, ct, kp, d, h1, h2, h3, h4, rfl⟩
      rw [h1]
      simp [h2, h3, h4]

/-- C6 witness: a backend whose `MSR_GS_BASE` holds the canonical value
`0x10000000000000` keeps that register's value. -/
theorem C6_current_process_witness :
    read_gs_base ntGsCanonical.core_ = some 0x10000000000000 :=
  (C6_current_process ntGsCanonical none).1 0x10000000000000 (by decide) (by decide)

/-- Shape of `setup` when the `MSR_LSTAR` read fails. -/
theorem setup_lstar_none (core : Core) (sel : Sel) (h : core.readReg MSR_LSTAR = none) :
    setup core sel = ⟨false, [], noSymbols, noMembers⟩ := by
  simp [setup, h]

/-- Shape of `setup` when the kernel image is not found. -/
theorem setup_nokernel (core : Core) (sel : Sel) (l : Nat)
    (hL : core.readReg MSR_LSTAR = some l) (h : (find_kernel core sel l).1 = none) :
    setup core sel = ⟨false, [NtLog.unableToFindKernel], noSymbols, noMembers⟩ := by
  simp [setup, hL, h]

/-- Shape of `setup` when the kernel image read fails. -/
theorem setup_noread (core : Core) (sel : Sel) (l : Nat) (k : span_t)
    (hL : core.readReg MSR_LSTAR = some l) (hK : (find_kernel core sel l).1 = some k)
    (h : core.readBytes sel k.addr k.size = none) :
    setup core sel = ⟨false, [NtLog.unableToReadKernelModule], noSymbols, noMembers⟩ := by
  simp [setup, hL, hK, h]

/-- Shape of `setup` when symbol ingestion fails. -/
theorem setup_noinsert (core : Core) (sel : Sel) (l : Nat) (k : span_t) (buf : List Nat)
    (hL : core.readReg MSR_LSTAR = some l) (hK : (find_kernel core sel l).1 = some k)
    (hB : core.readBytes sel k.addr k.size = some buf)
    (h : core.symInsert "nt" k buf = false) :
    setup core sel = ⟨false, [NtLog.unableToLoadSymbols], noSymbols, noMembers⟩ := by
  simp [setup, hL, hK, hB, h]

/-- Shape of `setup` once the register read, kernel location, image read
and symbol ingestion have succeeded: the run is decided entirely by the
two catalog resolutions and the `KiSystemCall64` cross-check. -/
theorem setup_steps (core : Core) (sel : Sel) (l : Nat) (k : span_t) (buf : List Nat)
    (hL : core.readReg MSR_LSTAR = some l) (hK : (find_kernel core sel l).1 = some k)
    (hB : core.readBytes sel k.addr k.size = some buf)
    (hI : core.symInsert "nt" k buf = true) :
    setup core sel =
      if (resolvedSymbols core).any Option.isNone || (resolvedMembers core).any Option.isNone then
        ⟨false, symbolErrors core ++ memberErrors core, resolvedSymbols core, resolvedMembers core⟩
      else if l ≠ (((resolvedSymbols core).getD KiSystemCall64 none).getD 0) then
        ⟨false, [NtLog.pdbMismatch l (((resolvedSymbols core).getD KiSystemCall64 none).getD 0)],
          resolvedSymbols core, resolvedMembers core⟩
      else ⟨true, [], resolvedSymbols core, resolvedMembers core⟩ := by
  simp [setup, hL, hK, hB, hI]

/-- A mapped catalog with every entry resolved has no `none` slot. -/
theorem any_isNone_false_of_forall {α : Type} (f : α → Option Nat) (l : List α)
    (h : ∀ e ∈ l, (f e).isSome) : (l.map f).any Option.isNone = false := by
  rw [List.any_eq_false]
  intro x hx
  rw [List.mem_map] at hx
  obtain ⟨e, he, rfl⟩ := hx
  have := h e he
  cases hfe : f e <;> simp_all

/-- A table with no `none` slot is fully populated. -/
theorem all_isSome_of_any_isNone (l : List (Option Nat)) (h : l.any Option.isNone = false) :
    l.all Option.isSome = true := by
  rw [List.all_eq_true]
  rw [List.any_eq_false] at h
  intro x hx
  have := h x hx
  cases x <;> simp_all

/-- A successful `setup` run resolved both catalogs completely and left
the resolution results in the tables. -/
theorem setup_ok_inv (core : Core) (sel : Sel) (hok : (setup core sel).ok = true) :
    setup core sel = ⟨true, [], resolvedSymbols core, resolvedMembers core⟩ ∧
    (resolvedSymbols core).any Option.isNone = false ∧
    (resolvedMembers core).any Option.isNone = false := by
  rcases hE : core.readReg MSR_LSTAR with _ | l
  · rw [setup_lstar_none core sel hE] at hok; simp at hok
  rcases hK : (find_kernel core sel l).1 with _ | kernel
  · rw [setup_nokernel core sel l hE hK] at hok; simp at hok
  rcases hB : core.readBytes sel kernel.addr kernel.size with _ | buffer
  · rw [setup_noread core sel l kernel hE hK hB] at hok; simp at hok
  rcases hI : core.symInsert "nt" kernel buffer with _ | _
  · rw [setup_noinsert core sel l kernel buffer hE hK hB hI] at hok; simp at hok
  have hS := setup_steps core sel l kernel buffer hE hK hB hI
  rw [hS] at hok ⊢
  by_cases hA : ((resolvedSymbols core).any Option.isNone
      || (resolvedMembers core).any Option.isNone) = true
  · rw [if_pos hA] at hok; simp at hok
  · rw [if_neg hA] at hok ⊢
    rw [Bool.not_eq_true, Bool.or_eq_false_iff] at hA
    by_cases hM : l ≠ (((resolvedSymbols core).getD KiSystemCall64 none).getD 0)
    · rw [if_pos hM] at hok; simp at hok
    · rw [if_neg hM] at hok ⊢
      exact ⟨rfl, hA.1, hA.2⟩

/-- C1: the offset tables a constructed walker carries are exactly the
catalog resolutions and are fully populated — `make_nt` hands out a
walker only when every symbol and every member entry resolved; and once
the bootstrap reaches resolution, one unresolvable entry does not stop
the others: the run still resolves every entry, reports each missing one
in the diagnostics, fails as a whole and yields no handler. -/
theorem C1_offset_table_all_or_nothing (core : Core) (sel : Sel) :
    (∀ nt, make_nt core sel = some nt →
      nt.symbols_ = resolvedSymbols core ∧ nt.members_ = resolvedMembers core ∧
      nt.symbols_.all Option.isSome = true ∧ nt.members_.all Option.isSome = true) ∧
    (∀ l k buf, core.readReg MSR_LSTAR = some l → (find_kernel core sel l).1 = some k →
      core.readBytes sel k.addr k.size = some buf → core.symInsert "nt" k buf = true →
      (∀ e ∈ g_symbol_offsets, core.symSymbol e.1 e.2 = none →
        (setup core sel).ok = false ∧
        (setup core sel).symbols_ = resolvedSymbols core ∧
        (setup core sel).members_ = resolvedMembers core ∧
        NtLog.missingSymbol e.1 e.2 ∈ (setup core sel).log ∧
        make_nt core sel = none) ∧
      (∀ e ∈ g_member_offsets, core.symStrucOffset e.1 e.2.1 e.2.2 = none →
        (setup core sel).ok = false ∧
        (setup core sel).symbols_ = resolvedSymbols core ∧
        (setup core sel).members_ = resolvedMembers core ∧
        NtLog.missingMember e.1 e.2.1 e.2.2 ∈ (setup core sel).log ∧
        make_nt core sel = none)) := by
  constructor
  · intro nt h
    unfold make_nt at h
    split at h
    · rename_i hok
      obtain ⟨hS, hA1, hA2⟩ := setup_ok_inv core sel hok
      have hnt : nt = ⟨core, (setup core sel).members_, (setup core sel).symbols_⟩ :=
        (Option.some_inj.mp h).symm
      rw [hnt, hS]
      exact ⟨rfl, rfl, all_isSome_of_any_isNone _ hA1, all_isSome_of_any_isNone _ hA2⟩
    · exact absurd h (by simp)
  · intro l k buf hL hK hB hI
    have hS := setup_steps core sel l k buf hL hK hB hI
    constructor
    · intro e he hnone
      have hA : (resolvedSymbols core).any Option.isNone = true := by
        refine List.any_eq_true.mpr ⟨core.symSymbol e.1 e.2, ?_, by simp [hnone]⟩
        rw [resolvedSymbols]
        exact List.mem_map_of_mem _ he
      have hfail : setup core sel
          = ⟨false, symbolErrors core ++ memberErrors core,
              resolvedSymbols core, resolvedMembers core⟩ := by
        rw [hS, if_pos (by simp [hA])]
      refine ⟨by rw [hfail], by rw [hfail], by rw [hfail], ?_, by simp [make_nt, hfail]⟩
      rw [hfail]
      refine List.mem_append.mpr (Or.inl ?_)
      exact List.mem_filterMap.mpr ⟨e, he, by rw [hnone]; simp⟩
    · intro e he hnone
      have hA : (resolvedMembers core).any Option.isNone = true := by
        refine List.any_eq_true.mpr ⟨core.symStrucOffset e.1 e.2.1 e.2.2, ?_, by simp [hnone]⟩
        rw [resolvedMembers]
        exact List.mem_map_of_mem _ he
      have hfail : setup core sel
          = ⟨false, symbolErrors core ++ memberErrors core,
              resolvedSymbols core, resolvedMembers core⟩ := by
        rw [hS, if_pos (by simp [hA])]
      refine ⟨by rw [hfail], by rw [hfail], by rw [hfail], ?_, by simp [make_nt, hfail]⟩
      rw [hfail]
      refine List.mem_append.mpr (Or.inr ?_)
      exact List.mem_filterMap.mpr ⟨e, he, by rw [hnone]; simp⟩

/-- C1 witness: a bootstrap whose resolution steps all fail still runs
both catalogs, reports the missing `nt!KiSystemCall64` entry (among the
others) and produces no handler. -/
theorem C1_offset_table_all_or_nothing_witness :
    (setup coreUnresolved none).ok = false ∧
    NtLog.missingSymbol "nt" "KiSystemCall64" ∈ (setup coreUnresolved none).log ∧
    NtLog.missingMember "nt" "_EPROCESS" "Pcb" ∈ (setup coreUnresolved none).log ∧
    make_nt coreUnresolved none = none := by
  have h := (C1_offset_table_all_or_nothing coreUnresolved none).2
    0x1100 ⟨0x1000, 0x42⟩ [] (by decide) (by decide) (by decide) (by decide)
  have hsym := h.1 ("nt", "KiSystemCall64") (by decide) (by decide)
  have hmem := h.2 ("nt", "_EPROCESS", "Pcb") (by decide) (by decide)
  exact ⟨hsym.1, hsym.2.2.2.1, hmem.2.2.2.1, hsym.2.2.2.2⟩

/-- C2: once the register read, kernel location, image read, ingestion and
all catalog resolutions succeed, `setup` succeeds exactly when the
resolved `nt!KiSystemCall64` address equals the `MSR_LSTAR` value; on a
mismatch the run fails with the distinct version-mismatch diagnostic as
its only log entry (no generic lookup-failure entry) and no handler is
produced. -/
theorem C2_version_mismatch (core : Core) (sel : Sel) (l : Nat) (k : span_t) (buf : List Nat)
    (hL : core.readReg MSR_LSTAR = some l) (hK : (find_kernel core sel l).1 = some k)
    (hB : core.readBytes sel k.addr k.size = some buf)
    (hI : core.symInsert "nt" k buf = true)
    (hsym : ∀ e ∈ g_symbol_offsets, (core.symSymbol e.1 e.2).isSome)
    (hmem : ∀ e ∈ g_member_offsets, (core.symStrucOffset e.1 e.2.1 e.2.2).isSome) :
    ∀ a, core.symSymbol "nt" "KiSystemCall64" = some a →
      (((setup core sel).ok = true) ↔ a = l) ∧
      (a ≠ l → (setup core sel).log = [NtLog.pdbMismatch l a] ∧ make_nt core sel = none) := by
  intro a ha
  have hS := setup_steps core sel l k buf hL hK hB hI
  have h1 : (resolvedSymbols core).any Option.isNone = false :=
    any_isNone_false_of_forall _ _ hsym
  have h2 : (resolvedMembers core).any Option.isNone = false :=
    any_isNone_false_of_forall _ _ hmem
  have hki : (((resolvedSymbols core).getD KiSystemCall64 none).getD 0) = a := by
    simp [resolvedSymbols, g_symbol_offsets, KiSystemCall64, ha]
  rw [h1, h2, hki] at hS
  simp only [Bool.or_self, Bool.false_eq_true, if_false] at hS
  by_cases hal : l = a
  · rw [if_neg (by simpa using hal)] at hS
    refine ⟨by rw [hS]; simpa using hal.symm, fun hne => absurd hal.symm hne⟩
  · rw [if_pos hal] at hS
    refine ⟨?_, fun _ => ⟨by rw [hS], by simp [make_nt, hS]⟩⟩
    rw [hS]
    constructor
    · intro h; exact absurd h (by simp)
    · intro h; exact absurd h.symm hal

/-- C2 witness: a bootstrap whose every entry resolves to 7 while
`MSR_LSTAR` reads `0x1100` fails with exactly the version-mismatch
diagnostic and produces no handler. -/
theorem C2_version_mismatch_witness :
    (setup coreMismatch none).ok = false ∧
    (setup coreMismatch none).log = [NtLog.pdbMismatch 0x1100 7] ∧
    make_nt coreMismatch none = none := by
  have h := C2_version_mismatch coreMismatch none 0x1100 ⟨0x1000, 0x42⟩ []
    (by decide) (by decide) (by decide) (by decide) (by decide) (by decide) 7 (by decide)
  have hne : (7 : Nat) ≠ 0x1100 := by decide
  refine ⟨?_, (h.2 hne).1, (h.2 hne).2⟩
  rcases hok : (setup coreMismatch none).ok with _ | _
  · rfl
  · exact absurd (h.1.mp hok) hne

/-- One subtraction step of the page arithmetic. -/
theorem sub_page_step (p q i : Nat) : p - q - i * q = p - (i + 1) * q := by
  rw [Nat.succ_mul, Nat.sub_sub, Nat.add_comm]

/-- A `getLast?` survives a cons. -/
theorem getLast?_cons_some {α : Type} (a x : α) (l : List α) (h : l.getLast? = some x) :
    (a :: l).getLast? = some x := by
  cases l with
  | nil => simp at h
  | cons b t => rw [List.getLast?_cons_cons]; exact h

/-- Loop-exit step: the scan guard `ptr < lstar` fails. -/
theorem fkg_step_nolt (core : Core) (sel : Sel) (lstar f ptr : Nat) (h : ¬ ptr < lstar) :
    find_kernel_go core sel lstar (f + 1) ptr = (none, []) := by
  simp [find_kernel_go, h]

/-- Failed-page-read step: the scan stops with an absent result. -/
theorem fkg_step_readfail (core : Core) (sel : Sel) (lstar f ptr : Nat)
    (hlt : ptr < lstar) (hrb : core.readBytes sel ptr PAGE_SIZE = none) :
    find_kernel_go core sel lstar (f + 1) ptr = (none, [ptr]) := by
  simp [find_kernel_go, hlt, hrb]

/-- Header-found step: the scan returns the probed page and its declared
size. -/
theorem fkg_step_found (core : Core) (sel : Sel) (lstar f ptr : Nat) (buf : List Nat) (sz : Nat)
    (hlt : ptr < lstar) (hrb : core.readBytes sel ptr PAGE_SIZE = some buf)
    (hpe : core.peReadImageSize buf = some sz) :
    find_kernel_go core sel lstar (f + 1) ptr = (some ⟨ptr, sz⟩, [ptr]) := by
  simp [find_kernel_go, hlt, hrb, hpe]

/-- Wrap-exit step: page 0 was probed and rejected; the unsigned
decrement would wrap, so the scan stops with an absent result. -/
theorem fkg_step_zero (core : Core) (sel : Sel) (lstar f : Nat) (buf : List Nat)
    (hlt : (0 : Nat) < lstar) (hrb : core.readBytes sel 0 PAGE_SIZE = some buf)
    (hpe : core.peReadImageSize buf = none) :
    find_kernel_go core sel lstar (f + 1) 0 = (none, [0]) := by
  simp [find_kernel_go, hlt, hrb, hpe]

/-- Step-back step: the probed page holds no header, the scan recurses
one page down. -/
theorem fkg_step_rec (core : Core) (sel : Sel) (lstar f ptr : Nat) (buf : List Nat)
    (hlt : ptr < lstar) (hrb : core.readBytes sel ptr PAGE_SIZE = some buf)
    (hpe : core.peReadImageSize buf = none) (hz : ptr ≠ 0) :
    find_kernel_go core sel lstar (f + 1) ptr
      = ((find_kernel_go core sel lstar f (ptr - PAGE_SIZE)).1,
          ptr :: (find_kernel_go core sel lstar f (ptr - PAGE_SIZE)).2) := by
  simp [find_kernel_go, hlt, hrb, hpe, hz]

/-- The probe addresses of the locator loop are, in order, the start
address minus 0, 1, 2, ... pages. -/
theorem fkg_probes_range (core : Core) (sel : Sel) (lstar : Nat) :
    ∀ fuel ptr, ∃ n,
      (find_kernel_go core sel lstar fuel ptr).2
        = (List.range n).map fun i => ptr - i * PAGE_SIZE := by
  intro fuel
  induction fuel with
  | zero => exact fun ptr => ⟨0, by simp [find_kernel_go]⟩
  | succ f ih =>
    intro ptr
    by_cases hlt : ptr < lstar
    · rcases hrb : core.readBytes sel ptr PAGE_SIZE with _ | buf
      · refine ⟨1, ?_⟩
        rw [fkg_step_readfail core sel lstar f ptr hlt hrb]
        simp [List.range_succ]
      rcases hpe : core.peReadImageSize buf with _ | sz
      · by_cases hz : ptr = 0
        · subst hz
          refine ⟨1, ?_⟩
          rw [fkg_step_zero core sel lstar f buf hlt hrb hpe]
          simp [List.range_succ]
        · obtain ⟨n, hn⟩ := ih (ptr - PAGE_SIZE)
          refine ⟨n + 1, ?_⟩
          rw [fkg_step_rec core sel lstar f ptr buf hlt hrb hpe hz]
          show ptr :: (find_kernel_go core sel lstar f (ptr - PAGE_SIZE)).2
              = (List.range (n + 1)).map fun i => ptr - i * PAGE_SIZE
          rw [hn, List.range_succ_eq_map]
          simp only [List.map_cons, List.map_map, Nat.zero_mul, Nat.sub_zero]
          refine congrArg (List.cons ptr) ?_
          apply List.map_congr_left
          intro i _
          simp only [Function.comp_apply]
          rw [sub_page_step]
      · refine ⟨1, ?_⟩
        rw [fkg_step_found core sel lstar f ptr buf sz hlt hrb hpe]
        simp [List.range_succ]
    · exact ⟨0, by rw [fkg_step_nolt core sel lstar f ptr hlt]; rfl⟩

/-- A span returned by the locator loop was found below `lstar`, at or
below the start address, carries the probe's declared size, is the last
probed page, and every earlier probed page was readable but rejected by
the image-size probe. -/
theorem fkg_found (core : Core) (sel : Sel) (lstar : Nat) :
    ∀ fuel ptr s, (find_kernel_go core sel lstar fuel ptr).1 = some s →
      s.addr < lstar ∧ s.addr ≤ ptr ∧
      (∃ b, core.readBytes sel s.addr PAGE_SIZE = some b ∧
        core.peReadImageSize b = some s.size) ∧
      (find_kernel_go core sel lstar fuel ptr).2.getLast? = some s.addr ∧
      (∀ q ∈ (find_kernel_go core sel lstar fuel ptr).2, q ≠ s.addr →
        ∃ b, core.readBytes sel q PAGE_SIZE = some b ∧ core.peReadImageSize b = none) := by
  intro fuel
  induction fuel with
  | zero => intro ptr s h; exact absurd h (by simp [find_kernel_go])
  | succ f ih =>
    intro ptr s h
    by_cases hlt : ptr < lstar
    · rcases hrb : core.readBytes sel ptr PAGE_SIZE with _ | buf
      · rw [fkg_step_readfail core sel lstar f ptr hlt hrb] at h
        exact absurd h (by simp)
      rcases hpe : core.peReadImageSize buf with _ | sz
      · by_cases hz : ptr = 0
        · subst hz
          rw [fkg_step_zero core sel lstar f buf hlt hrb hpe] at h
          exact absurd h (by simp)
        · rw [fkg_step_rec core sel lstar f ptr buf hlt hrb hpe hz] at h ⊢
          simp only at h ⊢
          obtain ⟨h1, h2, h3, h4, h5⟩ := ih (ptr - PAGE_SIZE) s h
          refine ⟨h1, Nat.le_trans h2 (Nat.sub_le _ _), h3, getLast?_cons_some _ _ _ h4, ?_⟩
          intro q hq hne
          rcases List.mem_cons.mp hq with rfl | hq2
          · exact ⟨buf, hrb, hpe⟩
          · exact h5 q hq2 hne
      · rw [fkg_step_found core sel lstar f ptr buf sz hlt hrb hpe] at h ⊢
        simp only at h
        have hs : s = ⟨ptr, sz⟩ := (Option.some_inj.mp h).symm
        subst hs
        refine ⟨hlt, Nat.le_refl _, ⟨buf, hrb, hpe⟩, by simp, ?_⟩
        intro q hq hne
        rcases List.mem_cons.mp hq with rfl | hq2
        · exact absurd rfl hne
        · exact absurd hq2 (by simp)
    · rw [fkg_step_nolt core sel lstar f ptr hlt] at h
      exact absurd h (by simp)

/-- If any probed page's read failed, the locator loop returned absent. -/
theorem fkg_fail (core : Core) (sel : Sel) (lstar : Nat) :
    ∀ fuel ptr q, q ∈ (find_kernel_go core sel lstar fuel ptr).2 →
      core.readBytes sel q PAGE_SIZE = none →
      (find_kernel_go core sel lstar fuel ptr).1 = none := by
  intro fuel
  induction fuel with
  | zero => intro ptr q hq _; exact absurd hq (by simp [find_kernel_go])
  | succ f ih =>
    intro ptr q hq hnone
    by_cases hlt : ptr < lstar
    · rcases hrb : core.readBytes sel ptr PAGE_SIZE with _ | buf
      · rw [fkg_step_readfail core sel lstar f ptr hlt hrb]
      rcases hpe : core.peReadImageSize buf with _ | sz
      · by_cases hz : ptr = 0
        · subst hz
          rw [fkg_step_zero core sel lstar f buf hlt hrb hpe]
        · rw [fkg_step_rec core sel lstar f ptr buf hlt hrb hpe hz] at hq ⊢
          simp only at hq ⊢
          rcases List.mem_cons.mp hq with rfl | hq2
          · rw [hrb] at hnone; exact absurd hnone (by simp)
          · exact ih (ptr - PAGE_SIZE) q hq2 hnone
      · rw [fkg_step_found core sel lstar f ptr buf sz hlt hrb hpe] at hq ⊢
        simp only at hq ⊢
        rcases List.mem_cons.mp hq with rfl | hq2
        · rw [hrb] at hnone; exact absurd hnone (by simp)
        · exact absurd hq2 (by simp)
    · rw [fkg_step_nolt core sel lstar f ptr hlt] at hq
      exact absurd hq (by simp)

/-- When the loop runs at all, its first probe is its start address. -/
theorem fkg_head (core : Core) (sel : Sel) (lstar : Nat) (f ptr : Nat) (hlt : ptr < lstar) :
    (find_kernel_go core sel lstar (f + 1) ptr).2.head? = some ptr := by
  rcases hrb : core.readBytes sel ptr PAGE_SIZE with _ | buf
  · rw [fkg_step_readfail core sel lstar f ptr hlt hrb]; rfl
  rcases hpe : core.peReadImageSize buf with _ | sz
  · by_cases hz : ptr = 0
    · subst hz
      rw [fkg_step_zero core sel lstar f buf hlt hrb hpe]; rfl
    · rw [fkg_step_rec core sel lstar f ptr buf hlt hrb hpe hz]; rfl
  · rw [fkg_step_found core sel lstar f ptr buf sz hlt hrb hpe]; rfl

/-- C3 (amended): the locator probes only the descending one-page-apart
addresses starting from the register value's enclosing page boundary;
when the register value is not page-aligned that enclosing page is probed
first, but when it is page-aligned the locator probes nothing and reports
absence; a returned span starts strictly below the register value at the
first probed page accepted by the image-size probe, paired with the
probe's declared size, every earlier probe having been readable and
rejected; and a failed page read makes the result absent. -/
theorem C3_amended (core : Core) (sel : Sel) (lstar : Nat) :
    (∃ n, (find_kernel core sel lstar).2
      = (List.range n).map fun i => utils.align PAGE_SIZE lstar - i * PAGE_SIZE) ∧
    (utils.align PAGE_SIZE lstar = lstar → find_kernel core sel lstar = (none, [])) ∧
    (utils.align PAGE_SIZE lstar < lstar →
      (find_kernel core sel lstar).2.head? = some (utils.align PAGE_SIZE lstar)) ∧
    (∀ s, (find_kernel core sel lstar).1 = some s →
      s.addr < lstar ∧
      (∃ b, core.readBytes sel s.addr PAGE_SIZE = some b ∧
        core.peReadImageSize b = some s.size) ∧
      (find_kernel core sel lstar).2.getLast? = some s.addr ∧
      ∀ q ∈ (find_kernel core sel lstar).2, q ≠ s.addr →
        ∃ b, core.readBytes sel q PAGE_SIZE = some b ∧ core.peReadImageSize b = none) ∧
    (∀ q ∈ (find_kernel core sel lstar).2, core.readBytes sel q PAGE_SIZE = none →
      (find_kernel core sel lstar).1 = none) := by
  refine ⟨?_, ?_, ?_, ?_, ?_⟩
  · exact fkg_probes_range core sel lstar _ _
  · intro h
    unfold find_kernel
    rw [h]
    exact fkg_step_nolt core sel lstar _ _ (Nat.lt_irrefl _)
  · exact fun h => fkg_head core sel lstar _ _ h
  · intro s hs
    obtain ⟨h1, _, h3, h4, h5⟩ := fkg_found core sel lstar _ _ s hs
    exact ⟨h1, h3, h4, h5⟩
  · exact fun q hq hnone => fkg_fail core sel lstar _ _ q hq hnone

/-- C3 counterexample: at the page-aligned register value `0x1000` the
enclosing page is readable and holds a valid image header of declared
size `0x5000`, yet the locator performs no probe at all and returns
absent — refuting the claim that the rounded-down enclosing page is
probed first for every register value and that a readable valid-header
page there is returned. -/
theorem C3_counterexample :
    coreAligned.readBytes none 0x1000 PAGE_SIZE = some [77, 90] ∧
    coreAligned.peReadImageSize [77, 90] = some 0x5000 ∧
    utils.align PAGE_SIZE 0x1000 = 0x1000 ∧
    find_kernel coreAligned none 0x1000 = (none, []) := by
  refine ⟨rfl, by decide, by decide, by decide⟩

/-- C3 witness: from the unaligned register value `0x2100` the locator
probes `0x2000` first, rejects it, and returns the span found one page
below, whose start `0x1000` lies strictly below the register value. -/
theorem C3_amended_witness :
    (find_kernel coreScan none 0x2100).1 = some ⟨0x1000, 0x4242⟩ ∧
    (span_t.mk 0x1000 0x4242).addr < 0x2100 ∧
    (find_kernel coreScan none 0x2100).2.head? = some 0x2000 := by
  have h := C3_amended coreScan none 0x2100
  refine ⟨by decide, (h.2.2.2.1 ⟨0x1000, 0x4242⟩ (by decide)).1, ?_⟩
  have h3 := h.2.2.1 (by decide)
  rw [show utils.align PAGE_SIZE 0x2100 = 0x2000 from by decide] at h3
  exact h3

/-- C7 (amended): name resolution reads the capped 14-byte image-name
field first and fails only if that read fails; the text kept is the
field's prefix up to its first null, so it never contains a null
(padding) byte; the three-dereference fallback is attempted exactly when
that text fills all 14 bytes (in which case it is nonempty); each
fallback step that fails silently yields the capped text unchanged; and
when every fallback step succeeds the result is the final path component
of the decoded full path — which is empty when the decoded path is
empty, so the round-trip result is guaranteed nonempty only on the
capped-text outcomes. -/
theorem C7_amended (nt : OsNt) (sel : Sel) (p : proc_t) :
    (nt.core_.readBytes sel (add64 p.id (nt.memv EPROCESS_ImageFileName)) 15 = none →
      OsNt.get_proc_name nt sel p = none) ∧
    (∀ buf, nt.core_.readBytes sel (add64 p.id (nt.memv EPROCESS_ImageFileName)) 15 = some buf →
      (∀ b ∈ (buf.take 14).takeWhile (fun b => b ≠ 0), b ≠ 0) ∧
      (((buf.take 14).takeWhile fun b => b ≠ 0).length < 14 →
        OsNt.get_proc_name nt sel p = some ((buf.take 14).takeWhile fun b => b ≠ 0)) ∧
      (((buf.take 14).takeWhile fun b => b ≠ 0).length = 14 →
        ((buf.take 14).takeWhile fun b => b ≠ 0) ≠ [] ∧
        (read_ptr nt.core_ sel
            (add64 (add64 p.id (nt.memv EPROCESS_SeAuditProcessCreationInfo))
              (nt.memv SE_AUDIT_PROCESS_CREATION_INFO_ImageFileName)) = none →
          OsNt.get_proc_name nt sel p = some ((buf.take 14).takeWhile fun b => b ≠ 0)) ∧
        (∀ ifn, read_ptr nt.core_ sel
            (add64 (add64 p.id (nt.memv EPROCESS_SeAuditProcessCreationInfo))
              (nt.memv SE_AUDIT_PROCESS_CREATION_INFO_ImageFileName)) = some ifn →
          ((read_unicode_string nt.core_ sel
              (add64 ifn (nt.memv OBJECT_NAME_INFORMATION_Name))).1 = none →
            OsNt.get_proc_name nt sel p = some ((buf.take 14).takeWhile fun b => b ≠ 0)) ∧
          (∀ d, (read_unicode_string nt.core_ sel
              (add64 ifn (nt.memv OBJECT_NAME_INFORMATION_Name))).1 = some d →
            OsNt.get_proc_name nt sel p = some (path_filename d))))) := by
  constructor
  · intro h
    simp [OsNt.get_proc_name, h]
  · intro buf hread
    refine ⟨?_, ?_, ?_⟩
    · intro b hb
      simpa using List.mem_takeWhile_imp hb
    · intro hlt
      simp only [decide_not] at hlt
      simp [OsNt.get_proc_name, hread, hlt]
    · intro hlen
      simp only [decide_not] at hlen
      refine ⟨?_, ?_, ?_⟩
      · intro hnil
        simp only [decide_not] at hnil
        rw [hnil] at hlen
        simp at hlen
      · intro hsa
        simp [OsNt.get_proc_name, hread, hlen, hsa]
      · intro ifn hifn
        constructor
        · intro hus
          simp [OsNt.get_proc_name, hread, hlen, hifn, hus]
        · intro d hd
          simp [OsNt.get_proc_name, hread, hlen, hifn, hd]

/-- C7 counterexample: a process whose capped image-name field is full
(fourteen `A` bytes, the round-trip scenario) and whose fallback chain
fully succeeds but leads to a Unicode path descriptor of length 0: the
decoded full path is empty and `get_proc_name` returns the empty name —
refuting the claim that the round-trip result is never empty. -/
theorem C7_counterexample :
    ntNameEmptyPath.core_.readBytes none
      (add64 (100 : Nat) (ntNameEmptyPath.memv EPROCESS_ImageFileName)) 15
      = some (List.replicate 14 65 ++ [0]) ∧
    (∀ b ∈ (List.replicate 14 65 ++ [0]).take 14, b ≠ 0) ∧
    OsNt.get_proc_name ntNameEmptyPath none ⟨100, 1⟩ = some [] := by
  refine ⟨by decide, by decide, by decide⟩

/-- C7 witness: a full capped field whose fallback chain is unreadable
keeps the capped text unchanged — fourteen `B`s, nonempty, no nulls. -/
theorem C7_amended_witness :
    OsNt.get_proc_name ntNameFallbackFail none ⟨100, 2⟩ = some (List.replicate 14 66) := by
  have h := (C7_amended ntNameFallbackFail none ⟨100, 2⟩).2
    (List.replicate 14 66 ++ [0]) (by decide)
  have h2 := (h.2.2 (by decide)).2.1 (by decide)
  rw [h2]
  decide
